import Mathlib

/-!
Verification of the energy-correction engine of `pymatgen/entries/compatibility.py`.

The development shallowly embeds the correction engine: exact rationals stand
for Python floats, association lists for Python dicts, `Except` for raised
exceptions, and explicit state passing for in-place mutation.  External
collaborators (the `Composition` class, the structure classifiers, the POTCAR
reference tables, the oxidation-state guesser) appear as data fields carrying
their externally computed results, as the spec treats them as interfaces only.
-/

deriving instance DecidableEq for Except

namespace PmgCompat

/-- Python `int()` applied to an exact rational: truncation toward zero. -/
def pyTrunc (q : ℚ) : ℤ := if 0 ≤ q then ⌊q⌋ else -⌊-q⌋

/-- Floor of an exact rational. -/
def pyFloor (q : ℚ) : ℤ := ⌊q⌋

/-- Python `round` with half-to-even tie breaking, idealized over exact
rationals. -/
def pyRoundHalfEven (q : ℚ) : ℤ :=
  let n := pyFloor q
  let f := q - (n : ℚ)
  if f < 1/2 then n
  else if 1/2 < f then n + 1
  else if n % 2 = 0 then n else n + 1

/-- Python `round(x, 6)` idealized over exact rationals. -/
def pyRound6 (q : ℚ) : ℚ := ((pyRoundHalfEven (q * 1000000) : ℤ) : ℚ) / 1000000

/-- Python truthiness of an optional float (as in `if not self.o2_energy`):
`None` and `0.0` are both falsy. -/
def pyFalsy : Option ℚ → Bool
  | none => true
  | some x => decide (x = 0)

/-- Modelled from the spec: `EnergyAdjustment` and its subclasses
(`ConstantEnergyAdjustment`, `CompositionEnergyAdjustment`,
`TemperatureEnergyAdjustment`) are defined in `entries/computed_entries.py`,
which is not among the reviewed sources.  Per the spec (sections 3 and 4.1) an
adjustment is a named, provenance-tagged (`cls`) energy delta of one of three
kinds; composition-scaled adjustments store a per-atom value and an atom count,
temperature-scaled ones a per-degree value, a temperature and an atom count;
the uncertainty may be an explicit unknown sentinel (Python `nan`, here
`none`), distinct from a true zero. -/
inductive EA where
  | const (name cls : String) (value : ℚ) (uncertainty : Option ℚ)
  | compScaled (name cls : String) (per_atom : ℚ) (n_atoms : ℚ)
      (uncertainty_per_atom : Option ℚ)
  | tempScaled (name cls : String) (per_deg : ℚ) (temp : ℚ) (n_atoms : ℚ)
      (uncertainty_per_deg : Option ℚ)
deriving DecidableEq

/-- The human-readable name of an adjustment. -/
def EA.name : EA → String
  | .const n _ _ _ => n
  | .compScaled n _ _ _ _ => n
  | .tempScaled n _ _ _ _ _ => n

/-- The provenance tag of an adjustment (`EnergyAdjustment.cls`, the generating
scheme's `as_dict()` here abstracted to a string). -/
def EA.cls : EA → String
  | .const _ c _ _ => c
  | .compScaled _ c _ _ _ => c
  | .tempScaled _ c _ _ _ _ => c

/-- The effective eV value of an adjustment (spec section 4.1): raw value,
per-atom value times count, or per-degree value times temperature times
count. -/
def EA.value : EA → ℚ
  | .const _ _ v _ => v
  | .compScaled _ _ p n _ => p * n
  | .tempScaled _ _ p t n _ => p * t * n

/-- The `(name, cls, value)` triple `process_entries` uses to detect an
already-applied identical correction. -/
def EA.dedupTriple (ea : EA) : String × String × ℚ := (ea.name, ea.cls, ea.value)

/-- The `(name, cls)` pair `process_entries` uses to detect a same-named,
same-provenance correction. -/
def EA.dedupPair (ea : EA) : String × String := (ea.name, ea.cls)

/-- Modelled from the spec: `Composition` is an external collaborator (a
"multiset of element→count").  We carry the element→amount association list
together with the externally rendered reduced formula and the result of the
external `get_reduced_composition_and_factor` (reduced amounts and reduction
factor). -/
structure Comp where
  amounts : List (String × ℚ)
  reduced_formula : String
  reduced_amounts : List (String × ℚ)
  factor : ℚ
deriving DecidableEq

/-- `comp[el]`: amount of an element, `0` when absent. -/
def Comp.get (c : Comp) (s : String) : ℚ := (List.lookup s c.amounts).getD 0

/-- `Element(el) in comp`. -/
def Comp.hasElement (c : Comp) (s : String) : Bool := (List.lookup s c.amounts).isSome

/-- `comp.elements`, in the composition's storage order. -/
def Comp.elements (c : Comp) : List String := c.amounts.map Prod.fst

/-- `comp.num_atoms`. -/
def Comp.num_atoms (c : Comp) : ℚ := (c.amounts.map Prod.snd).sum

/-- `len(comp)`: the number of elements. -/
def Comp.num_elements (c : Comp) : ℕ := c.amounts.length

/-- Modelled from the spec: `ComputedEntry` / `ComputedStructureEntry` are
external (spec section 3).  Fields carry the composition, the uncorrected
energy, the calculation parameters (`run_type`, `software`, `hubbards`), the
auxiliary data tags (`sulfide_type`, `oxide_type`, `oxidation_states`), the
externally computed oxidation-state guess (`Composition.oxi_state_guesses`,
first guess or `{}` on failure), the external structure classifiers' verdicts
(`sulfide_type(structure)`, `oxide_type(structure)`), the external POTCAR
consistency verdict, and the mutable adjustment list. -/
structure Entry where
  comp : Comp
  uncorrected_energy : ℚ
  run_type : Option String
  software : Option String
  potcar_ok : Bool
  hubbards : Option (List (String × ℚ))
  sulfide_type_data : Option String
  oxide_type_data : Option String
  has_structure : Bool
  struct_sulfide_type : String
  struct_oxide_type : String
  oxi_states_data : Option (List (String × ℚ))
  oxi_guess : List (String × ℚ)
  energy_adjustments : List EA
deriving DecidableEq

/-- `entry.correction`: sum of the values of all attached adjustments. -/
def Entry.correction (e : Entry) : ℚ := (e.energy_adjustments.map EA.value).sum

/-- `entry.energy`: uncorrected energy plus all adjustments. -/
def Entry.energy (e : Entry) : ℚ := e.uncorrected_energy + e.correction

/-- `entry.energy_per_atom`. -/
def Entry.energy_per_atom (e : Entry) : ℚ := e.energy / e.comp.num_atoms

/-- Replace the adjustment list of an entry (`entry.energy_adjustments = l`). -/
def Entry.withAdjustments (e : Entry) (l : List EA) : Entry :=
  { e with energy_adjustments := l }

/-- The oxidation states `MaterialsProject2020Compatibility.get_adjustments`
ends up using: the pre-populated `entry.data["oxidation_states"]` when the key
is present, otherwise the cached result of the external guesser. -/
def Entry.effOxiStates (e : Entry) : List (String × ℚ) :=
  e.oxi_states_data.getD e.oxi_guess

/-- The `on_error` policy of `Compatibility.process_entries`. -/
inductive OnError where
  | ignore
  | warn
  | raise
deriving DecidableEq

/-- The per-adjustment deduplication loop of `Compatibility.process_entries`
(`for ea in adjustments: ...`): an exact `(name, cls, value)` match is skipped,
a `(name, cls)` match with a different value marks the entry ignored, anything
else is appended; the loop keeps running after the entry is marked. -/
def applyAdj : List EA × Bool → List EA → List EA × Bool
  | st, [] => st
  | (l, b), ea :: rest =>
    if ea.dedupTriple ∈ l.map EA.dedupTriple then
      applyAdj (l, b) rest
    else if ea.dedupPair ∈ l.map EA.dedupPair then
      applyAdj (l, true) rest
    else
      applyAdj (l ++ [ea], b) rest

/-- `entry.energy_adjustments = []` when `clean` is set, before processing. -/
def cleanEntry (clean : Bool) (e : Entry) : Entry :=
  if clean then e.withAdjustments [] else e

/-- One iteration of the `Compatibility.process_entries` loop over a single
entry: optional clean, call to `get_adjustments` (which may raise), then the
deduplication loop.  Returns the entry's post-state and its acceptance flag
(`not ignore_entry`). -/
def entryOutcome {ε : Type} (getAdj : Entry → Except ε (List EA)) (clean : Bool)
    (e : Entry) : Except ε (Entry × Bool) :=
  let e0 := cleanEntry clean e
  match getAdj e0 with
  | .error err => .error err
  | .ok adjs =>
    let r := applyAdj (e0.energy_adjustments, false) adjs
    .ok (e0.withAdjustments r.1, !r.2)

/-- `Compatibility.process_entries` (lines 522-597): process each entry in
order; a raised error is swallowed (entry dropped) when it is a
`CompatibilityError` (`isCompat`) and the policy is not `raise`, and propagated
otherwise; entries marked ignored by the deduplication loop are dropped;
accepted entries are returned in order with their accumulated adjustments. -/
def Compatibility.process_entries {ε : Type} (isCompat : ε → Bool)
    (getAdj : Entry → Except ε (List EA)) (clean : Bool) (on_error : OnError) :
    List Entry → Except ε (List Entry)
  | [] => .ok []
  | e :: rest =>
    match entryOutcome getAdj clean e with
    | .error err =>
      if isCompat err = true ∧ on_error ≠ OnError.raise then
        Compatibility.process_entries isCompat getAdj clean on_error rest
      else .error err
    | .ok (e1, accepted) =>
      match Compatibility.process_entries isCompat getAdj clean on_error rest with
      | .error err => .error err
      | .ok out => .ok (if accepted then e1 :: out else out)

/-- The accepted post-state of one entry, `none` when the entry is dropped
(raised error or deduplication conflict). -/
def acceptFn {ε : Type} (getAdj : Entry → Except ε (List EA)) (clean : Bool)
    (e : Entry) : Option Entry :=
  match entryOutcome getAdj clean e with
  | .ok (e1, true) => some e1
  | _ => none

/-- The post-state of one entry whether accepted or not (in-place mutation
still happens on conflicting entries; erroring entries keep their cleaned
state). -/
def postEntry {ε : Type} (getAdj : Entry → Except ε (List EA)) (clean : Bool)
    (e : Entry) : Entry :=
  match entryOutcome getAdj clean e with
  | .ok (e1, _) => e1
  | .error _ => cleanEntry clean e

/-- The element list `sorted((el for el in comp.elements if comp[el] > 0),
key=lambda el: el.X)`: elements of positive amount, stably sorted by
electronegativity `X` (an external per-element table, passed as a function). -/
def sortedElements (X : String → ℚ) (c : Comp) : List String :=
  List.insertionSort (fun a b => X a ≤ X b)
    (c.elements.filter (fun s => decide (0 < c.get s)))

/-- `elements[-1].symbol`: the most electronegative element present (the last
element of the stable ascending sort). -/
def mostElectroneg (X : String → ℚ) (c : Comp) : String :=
  (sortedElements X c).getLastD ""

/-- A value with an uncertainty, as produced by `ufloat` from the
`uncertainties` package; the uncertainty is tracked as a variance (`var` is the
square of the standard deviation), so that sums of independent `ufloat`s add
variances and scaling by an exact constant `n` multiplies the variance by
`n^2`. -/
structure UFloat where
  val : ℚ
  var : ℚ
deriving DecidableEq

/-- The `GasCorrection` scheme: its name and the `CompoundEnergies` table
loaded from the configuration file (external data, carried as a field). -/
structure GasCorrection where
  name : String
  cpd_energies : List (String × ℚ)

/-- `GasCorrection.get_correction` (lines 196-210): starts from
`ufloat(0.0, 0.0)` and, when the reduced formula is in the compound-energy
table, adds `cpd_energies[rform] * comp.num_atoms - entry.uncorrected_energy`
(an exact number, leaving the zero uncertainty unchanged). -/
def GasCorrection.get_correction (g : GasCorrection) (e : Entry) : UFloat :=
  match List.lookup e.comp.reduced_formula g.cpd_energies with
  | some v => { val := 0 + (v * e.comp.num_atoms - e.uncorrected_energy), var := 0 }
  | none => { val := 0, var := 0 }

/-- The `UCorrection` scheme: the `u_settings` (mandated Hubbard-U values from
the input set's `LDAUU` configuration), `u_corrections` and `u_errors` tables,
each keyed by the most electronegative element and then by element symbol.
With `compat_type = "GGA"` all three are empty. -/
structure UCorrectionScheme where
  u_settings : List (String × List (String × ℚ))
  u_corrections : List (String × List (String × ℚ))
  u_errors : List (String × List (String × ℚ))

/-- The element loop of `UCorrection.get_correction` (lines 465-472): for each
element of the composition, raise `CompatibilityError` when the Hubbard U used
(`calc_u.get(sym, 0)`) differs from the mandated one (`u_settings.get(sym, 0)`),
and otherwise add `ufloat(u_corr[sym], u_errors[sym]) * comp[el]` when the
symbol is in the correction table. -/
def uValLoop (calc_u u_set u_corr u_err : List (String × ℚ)) (comp : Comp) :
    List String → Except Unit UFloat
  | [] => .ok { val := 0, var := 0 }
  | sym :: rest =>
    if (List.lookup sym calc_u).getD 0 ≠ (List.lookup sym u_set).getD 0 then
      .error ()
    else
      match uValLoop calc_u u_set u_corr u_err comp rest with
      | .error err => .error err
      | .ok u =>
        if (List.lookup sym u_corr).isSome then
          .ok { val := (List.lookup sym u_corr).getD 0 * comp.get sym + u.val,
                var := ((List.lookup sym u_err).getD 0 * comp.get sym) ^ 2 + u.var }
        else .ok u

/-- `UCorrection.get_correction` (lines 448-473): `calc_u` defaults to the
empty map when `hubbards` is missing; the sub-tables are selected by the most
electronegative element (`.get(most_electroneg, {})`), then the element loop
runs over `comp.elements`. -/
def UCorrectionScheme.get_correction (u : UCorrectionScheme) (X : String → ℚ)
    (e : Entry) : Except Unit UFloat :=
  let calc_u := e.hubbards.getD []
  let melec := mostElectroneg X e.comp
  uValLoop calc_u ((List.lookup melec u.u_settings).getD [])
    ((List.lookup melec u.u_corrections).getD [])
    ((List.lookup melec u.u_errors).getD []) e.comp e.comp.elements

/-- The `MaterialsProject2020Compatibility` scheme: policy flags and the
correction/uncertainty tables loaded from `MP2020Compatibility.yaml` (external
configuration data, carried as fields); `cls` abstracts the scheme's
`as_dict()` provenance tag.  With `compat_type = "GGA"` the three `u_*` tables
are empty. -/
structure MaterialsProject2020Compatibility where
  compat_type : String
  correct_peroxide : Bool
  check_potcar : Bool
  comp_correction : List (String × ℚ)
  comp_errors : List (String × ℚ)
  u_corrections : List (String × List (String × ℚ))
  u_settings : List (String × List (String × ℚ))
  u_errors : List (String × List (String × ℚ))
  cls : String

/-- Sulfide-type resolution of `MaterialsProject2020Compatibility.get_adjustments`
(lines 949-958): the `sulfide_type` data tag if present, else the external
structure classifier if a structure is present, else the default `"sulfide"`;
polysulfide is folded into sulfide. -/
def MaterialsProject2020Compatibility.sf_type (e : Entry) : String :=
  let t := match e.sulfide_type_data with
    | some s => s
    | none => if e.has_structure then e.struct_sulfide_type else "sulfide"
  if t = "polysulfide" then "sulfide" else t

/-- The special-formula fallback lists of lines 985-987. -/
def common_peroxides : List String :=
  ["Li2O2", "Na2O2", "K2O2", "Cs2O2", "Rb2O2", "BeO2", "MgO2", "CaO2", "SrO2", "BaO2"]

/-- Common superoxide reduced formulas (line 986). -/
def common_superoxides : List String := ["LiO2", "NaO2", "KO2", "RbO2", "CsO2"]

/-- Ozonide reduced formulas (line 987). -/
def ozonides : List String := ["LiO3", "NaO3", "KO3", "NaO5"]

/-- Oxide-type resolution of lines 973-1001: with `correct_peroxide`, the
`oxide_type` data tag if present, else the external structure classifier, else
the special-formula fallback; without `correct_peroxide` always `"oxide"`;
hydroxide is folded into oxide. -/
def MaterialsProject2020Compatibility.ox_type
    (c : MaterialsProject2020Compatibility) (e : Entry) : String :=
  let t :=
    if c.correct_peroxide then
      match e.oxide_type_data with
      | some s => s
      | none =>
        if e.has_structure then e.struct_oxide_type
        else if common_peroxides.contains e.comp.reduced_formula then "peroxide"
        else if common_superoxides.contains e.comp.reduced_formula then "superoxide"
        else if ozonides.contains e.comp.reduced_formula then "ozonide"
        else "oxide"
    else "oxide"
  if t = "hydroxide" then "oxide" else t

/-- The fixed anion list of line 1035: `"Br I Se Si Sb Te H N F Cl".split()`. -/
def anionList : List String :=
  ["Br", "I", "Se", "Si", "Sb", "Te", "H", "N", "F", "Cl"]

/-- The anion-correction loop of lines 1035-1056: for each anion of the fixed
list that is present in the composition and has a composition-correction table
entry, the correction is applied when the entry's oxidation state for it is
negative, or else when it is the most electronegative element present. -/
def MaterialsProject2020Compatibility.anion_adjustments
    (c : MaterialsProject2020Compatibility) (X : String → ℚ) (e : Entry) :
    List EA :=
  anionList.filterMap (fun anion =>
    if e.comp.hasElement anion && (List.lookup anion c.comp_correction).isSome then
      if decide ((List.lookup anion e.effOxiStates).getD 0 < 0)
          || decide (anion = mostElectroneg X e.comp) then
        some (EA.compScaled ("MP2020 anion correction (" ++ anion ++ ")") c.cls
          ((List.lookup anion c.comp_correction).getD 0) (e.comp.get anion)
          (some ((List.lookup anion c.comp_errors).getD 0)))
      else none
    else none)

/-- The GGA/GGA+U mixing loop of lines 1066-1082: for each element of the
composition, raise `CompatibilityError` on a Hubbard-U mismatch, and append a
composition-scaled mixing adjustment for elements in the
(most-electronegative-keyed) correction table. -/
def mp2020_u_loop (calc_u u_set u_corr u_err : List (String × ℚ)) (cls : String)
    (comp : Comp) : List String → Except Unit (List EA)
  | [] => .ok []
  | sym :: rest =>
    if (List.lookup sym calc_u).getD 0 ≠ (List.lookup sym u_set).getD 0 then
      .error ()
    else
      match mp2020_u_loop calc_u u_set u_corr u_err cls comp rest with
      | .error err => .error err
      | .ok l =>
        if (List.lookup sym u_corr).isSome then
          .ok (EA.compScaled ("MP2020 GGA/GGA+U mixing correction (" ++ sym ++ ")")
            cls ((List.lookup sym u_corr).getD 0) (comp.get sym)
            (some ((List.lookup sym u_err).getD 0)) :: l)
        else .ok l

/-- The sulfide block of lines 949-969 as an adjustment list. -/
def MaterialsProject2020Compatibility.sulfide_adjustments
    (c : MaterialsProject2020Compatibility) (e : Entry) : List EA :=
  if e.comp.hasElement "S" && decide (MaterialsProject2020Compatibility.sf_type e = "sulfide") then
    [EA.compScaled "MP2020 anion correction (S)" c.cls
      ((List.lookup "S" c.comp_correction).getD 0) (e.comp.get "S")
      (some ((List.lookup "S" c.comp_errors).getD 0))]
  else []

/-- The oxide block of lines 972-1011 as an adjustment list. -/
def MaterialsProject2020Compatibility.oxide_adjustments
    (c : MaterialsProject2020Compatibility) (e : Entry) : List EA :=
  if e.comp.hasElement "O" then
    [EA.compScaled ("MP2020 anion correction (" ++ c.ox_type e ++ ")") c.cls
      ((List.lookup (c.ox_type e) c.comp_correction).getD 0) (e.comp.get "O")
      (some ((List.lookup (c.ox_type e) c.comp_errors).getD 0))]
  else []

/-- `MaterialsProject2020Compatibility.get_adjustments` (lines 908-1084):
run-type check, POTCAR check (the external set comparison abstracted as
`potcar_ok`, performed for vasp software when `check_potcar` is set), the
single-element early return, then the sulfide, oxide and anion blocks followed
by the GGA/GGA+U mixing loop. -/
def MaterialsProject2020Compatibility.get_adjustments
    (c : MaterialsProject2020Compatibility) (X : String → ℚ) (e : Entry) :
    Except Unit (List EA) :=
  if ¬(e.run_type = some "GGA" ∨ e.run_type = some "GGA+U") then .error ()
  else if e.software.getD "vasp" = "vasp" ∧ c.check_potcar = true ∧ e.potcar_ok = false then
    .error ()
  else if e.comp.num_elements = 1 then .ok []
  else
    let calc_u := e.hubbards.getD []
    let melec := mostElectroneg X e.comp
    match mp2020_u_loop calc_u ((List.lookup melec c.u_settings).getD [])
        ((List.lookup melec c.u_corrections).getD [])
        ((List.lookup melec c.u_errors).getD []) c.cls e.comp e.comp.elements with
    | .error err => .error err
    | .ok us =>
      .ok (c.sulfide_adjustments e ++ c.oxide_adjustments e ++
        c.anion_adjustments X e ++ us)

/-- `MU_H2O`: the experimental free energy of formation of water, eV/H2O. -/
def MU_H2O : ℚ := -24583/10000

/-- The standard-state entropy table `cpd_entropies` of lines 1251-1259
(eV/atom). -/
def cpd_entropies : List (String × ℚ) :=
  [("O2", 316731/1000000), ("N2", 295729/1000000), ("F2", 313025/1000000),
   ("Cl2", 344373/1000000), ("Br", 235039/1000000), ("Hg", 234421/1000000),
   ("H2O", 71963/1000000)]

/-- The mutable reference-energy state of a `MaterialsProjectAqueousCompatibility`
instance: `o2_energy`, `h2o_energy`, `h2o_adjustments` from the constructor or
the batch scan, and `h2_energy` from the batch scan. -/
structure AqState where
  o2_energy : Option ℚ
  h2o_energy : Option ℚ
  h2_energy : Option ℚ
  h2o_adjustments : Option ℚ
deriving DecidableEq

/-- Error kinds the aqueous `get_adjustments` can raise: a `CompatibilityError`
for missing reference energies, or the `assert self.h2_energy is not None`
failure (an `AssertionError`, which `process_entries` does not catch). -/
inductive AqErr where
  | compat
  | assertFail
deriving DecidableEq

/-- `self.fit_h2_energy` (lines 1293-1299): the H2 free energy per atom fitted
so that the experimental formation free energy of water is reproduced, from
entropy-corrected O2 and H2O energies, rounded to 6 decimals. -/
def fitH2Energy (o2_energy h2o_energy : ℚ) : ℚ :=
  pyRound6 (1/2 *
    (3 * (h2o_energy - (List.lookup "H2O" cpd_entropies).getD 0)
      - (o2_energy - (List.lookup "O2" cpd_entropies).getD 0) - MU_H2O))

/-- The whole-water-molecule count of lines 1359-1360:
`int(min(rcomp["H"] / 2.0, rcomp["O"])) * factor`, computed on the reduced
composition. -/
def aqNH2O (c : Comp) : ℚ :=
  ((pyTrunc (min ((List.lookup "H" c.reduced_amounts).getD 0 / 2)
    ((List.lookup "O" c.reduced_amounts).getD 0)) : ℤ) : ℚ) * c.factor

/-- `MaterialsProjectAqueousCompatibility.get_adjustments` (lines 1263-1381):
raise `CompatibilityError` when any of the three reference values is unset;
otherwise emit, in order, the H2 referencing adjustment (asserting that
`h2_energy` is known), the room-temperature entropy adjustment for molecular
compounds, and the hydrate adjustment for non-water compounds containing whole
water molecules. -/
def MaterialsProjectAqueousCompatibility.get_adjustments (st : AqState)
    (cls : String) (e : Entry) : Except AqErr (List EA) :=
  match st.o2_energy, st.h2o_energy, st.h2o_adjustments with
  | some o2e, some h2oe, some h2oadj =>
    let fit_h2_energy := fitH2Energy o2e h2oe
    let rform := e.comp.reduced_formula
    let h2_part : Except AqErr (List EA) :=
      if rform = "H2" then
        match st.h2_energy with
        | none => .error AqErr.assertFail
        | some h2e =>
          .ok [EA.const "MP Aqueous H2 / H2O referencing" cls
            ((fit_h2_energy - h2e) * e.comp.num_atoms) none]
      else .ok []
    match h2_part with
    | .error err => .error err
    | .ok l1 =>
      let l2 : List EA :=
        match List.lookup rform cpd_entropies with
        | some s =>
          [EA.tempScaled "Compound entropy at room temperature" cls
            (-s / 298) 298 e.comp.num_atoms none]
        | none => []
      let l3 : List EA :=
        if rform ≠ "H2O" then
          if 0 < aqNH2O e.comp then
            [EA.compScaled "MP Aqueous hydrate" cls
              ((-1) * (h2oadj * 3 + MU_H2O)) (aqNH2O e.comp) none]
          else []
        else []
      .ok (l1 ++ l2 ++ l3)
  | _, _, _ => .error AqErr.compat

/-- The first entry of a list minimizing `energy_per_atom`
(`sorted(entries, key=lambda e: e.energy_per_atom)[0]`, the sort being
stable). -/
def argminEpa (l : List Entry) : Option Entry :=
  l.foldl (fun acc e =>
    match acc with
    | none => some e
    | some a => if e.energy_per_atom < a.energy_per_atom then some e else some a)
    none

/-- The batch scan of `MaterialsProjectAqueousCompatibility.process_entries`
(lines 1435-1451): for batches of more than one entry, populate unset
(`None`-or-`0.0`) reference energies from the lowest-energy-per-atom O2 and H2O
entries; always record the lowest H2 energy per atom. -/
def scanState (st : AqState) (entries : List Entry) : AqState :=
  let st1 :=
    if 1 < entries.length then
      let sta :=
        if pyFalsy st.o2_energy then
          match argminEpa (entries.filter (fun e => e.comp.reduced_formula == "O2")) with
          | some a => { st with o2_energy := some a.energy_per_atom }
          | none => st
        else st
      if pyFalsy sta.h2o_energy && pyFalsy sta.h2o_adjustments then
        match argminEpa (entries.filter (fun e => e.comp.reduced_formula == "H2O")) with
        | some a =>
          { sta with h2o_energy := some a.energy_per_atom,
                     h2o_adjustments := some (a.correction / a.comp.num_atoms) }
        | none => sta
      else sta
    else st
  match argminEpa (entries.filter (fun e => e.comp.reduced_formula == "H2")) with
  | some a => { st1 with h2_energy := some a.energy_per_atom }
  | none => st1

/-- The solid-compatibility pre-processing call
`self.solid_compat.process_entries(entries, clean=True)` of line 1419: the
default `on_error="ignore"` policy never lets a `CompatibilityError` escape, so
the error branch below is unreachable (proved in
`process_entries_ignore_never_raises`). -/
def runIgnore (g : Entry → Except Unit (List EA)) (es : List Entry) : List Entry :=
  match Compatibility.process_entries (fun _ => true) g true OnError.ignore es with
  | .ok l => l
  | .error _ => []

/-- `MaterialsProjectAqueousCompatibility.process_entries` (lines 1383-1452):
pre-process with the solid scheme (clean, ignoring errors), run the batch scan
to populate reference energies, then run the generic batch loop with the
aqueous `get_adjustments`; only `CompatibilityError` (`AqErr.compat`) is
subject to the `on_error` policy. -/
def MaterialsProjectAqueousCompatibility.process_entries
    (solid_compat : Option (Entry → Except Unit (List EA))) (cls : String)
    (st : AqState) (entries : List Entry) (clean : Bool) (on_error : OnError) :
    Except AqErr (List Entry) :=
  let entries1 :=
    match solid_compat with
    | some g => runIgnore g entries
    | none => entries
  let st1 := scanState st entries1
  Compatibility.process_entries (fun err => decide (err = AqErr.compat))
    (MaterialsProjectAqueousCompatibility.get_adjustments st1 cls) clean
    on_error entries1

/-- Adjustments with equal dedup triples have equal dedup pairs. -/
theorem EA.dedupPair_eq_of_triple_eq {x y : EA} (h : x.dedupTriple = y.dedupTriple) :
    x.dedupPair = y.dedupPair := by
  simp only [EA.dedupTriple, EA.dedupPair, Prod.mk.injEq] at h ⊢
  exact ⟨h.1, h.2.1⟩

/-- Once the deduplication loop has marked an entry ignored, it stays
ignored. -/
theorem applyAdj_flag_mono (adjs : List EA) (l : List EA) :
    (applyAdj (l, true) adjs).2 = true := by
  induction adjs generalizing l with
  | nil => rfl
  | cons ea rest ih =>
    rw [applyAdj]
    split
    · exact ih l
    · split
      · exact ih l
      · exact ih (l ++ [ea])

/-- If every computed adjustment's `(name, cls, value)` triple is already on
the entry, the deduplication loop is a no-op (the idempotent skip branch). -/
theorem applyAdj_skip_all (adjs : List EA) (l : List EA) (b : Bool)
    (h : ∀ ea ∈ adjs, ea.dedupTriple ∈ l.map EA.dedupTriple) :
    applyAdj (l, b) adjs = (l, b) := by
  induction adjs with
  | nil => rfl
  | cons ea rest ih =>
    rw [applyAdj, if_pos (h ea (by simp))]
    exact ih fun x hx => h x (by simp [hx])

/-- If some computed adjustment matches a carried adjustment on `(name, cls)`
while every carried adjustment with that pair has a different value, the
deduplication loop marks the entry ignored. -/
theorem applyAdj_conflict (adjs : List EA) (ea : EA) (l : List EA) (b : Bool)
    (hmem : ea ∈ adjs) (hpair : ea.dedupPair ∈ l.map EA.dedupPair)
    (hval : ∀ x ∈ l, x.dedupPair = ea.dedupPair → x.dedupTriple ≠ ea.dedupTriple) :
    (applyAdj (l, b) adjs).2 = true := by
  induction adjs generalizing l b with
  | nil => cases hmem
  | cons a rest ih =>
    rcases List.mem_cons.mp hmem with rfl | hmem'
    · have htrip : ea.dedupTriple ∉ l.map EA.dedupTriple := by
        intro hc
        obtain ⟨x, hx, hxe⟩ := List.mem_map.mp hc
        exact hval x hx (EA.dedupPair_eq_of_triple_eq hxe) hxe
      rw [applyAdj, if_neg htrip, if_pos hpair]
      exact applyAdj_flag_mono rest l
    · rw [applyAdj]
      split
      · exact ih l b hmem' hpair hval
      · split
        · exact applyAdj_flag_mono rest l
        · rename_i h1 h2
          refine ih (l ++ [a]) b hmem' (by simp [hpair]) ?_
          intro x hx hxp
          rcases List.mem_append.mp hx with hx' | hx'
          · exact hval x hx' hxp
          · rcases List.mem_singleton.mp hx' with rfl
            exact absurd (hxp ▸ hpair) h2

/-- With the default `on_error="ignore"` policy the batch loop never raises: it
returns exactly the accepted per-entry outcomes, in order. -/
theorem process_entries_ignore_never_raises {ε : Type}
    (getAdj : Entry → Except ε (List EA)) (clean : Bool) (es : List Entry) :
    Compatibility.process_entries (fun _ => true) getAdj clean OnError.ignore es =
      .ok (es.filterMap (acceptFn getAdj clean)) := by
  induction es with
  | nil => rfl
  | cons e rest ih =>
    rw [Compatibility.process_entries, List.filterMap_cons]
    cases h : entryOutcome getAdj clean e with
    | error err => simp [acceptFn, h, ih]
    | ok p =>
      cases p with
      | mk e1 accepted =>
        cases accepted <;> simp [acceptFn, h, ih]

/-- When an entry is accepted, its returned post-state is its processed
post-state. -/
theorem postEntry_of_accept {ε : Type} (getAdj : Entry → Except ε (List EA))
    (clean : Bool) (e x : Entry) (h : acceptFn getAdj clean e = some x) :
    postEntry getAdj clean e = x := by
  unfold acceptFn at h
  unfold postEntry
  cases he : entryOutcome getAdj clean e with
  | error err => rw [he] at h; cases h
  | ok p =>
    cases p with
    | mk e1 accepted =>
      rw [he] at h
      cases accepted with
      | false => cases h
      | true => simpa using h

/-- The accepted entries form an order-preserving subsequence of the processed
batch. -/
theorem filterMap_accept_sublist {ε : Type} (getAdj : Entry → Except ε (List EA))
    (clean : Bool) (es : List Entry) :
    (es.filterMap (acceptFn getAdj clean)).Sublist
      (es.map (postEntry getAdj clean)) := by
  induction es with
  | nil => simp
  | cons e rest ih =>
    rw [List.filterMap_cons, List.map_cons]
    cases h : acceptFn getAdj clean e with
    | none => exact ih.cons _
    | some x =>
      rw [postEntry_of_accept getAdj clean e x h]
      exact ih.cons₂ x

/-- Acceptance does not change an entry's composition. -/
theorem acceptFn_comp {ε : Type} (getAdj : Entry → Except ε (List EA))
    (clean : Bool) (e x : Entry) (h : acceptFn getAdj clean e = some x) :
    x.comp = e.comp := by
  simp only [acceptFn, entryOutcome] at h
  cases hg : getAdj (cleanEntry clean e) with
  | error err => rw [hg] at h; cases h
  | ok adjs =>
    rw [hg] at h
    simp only at h
    split at h
    · rename_i e1 heq
      simp only [Except.ok.injEq, Prod.mk.injEq] at heq
      simp only [Option.some.injEq] at h
      subst h
      rw [← heq.1]
      cases clean <;> rfl
    · cases h

/-- When every entry of the batch raises a `CompatibilityError`-classified
error, the ignoring batch loop returns the empty list. -/
theorem process_entries_all_error {ε : Type} (isCompat : ε → Bool)
    (getAdj : Entry → Except ε (List EA)) (clean : Bool) (es : List Entry)
    (h : ∀ e ∈ es, ∃ err, entryOutcome getAdj clean e = .error err ∧ isCompat err = true) :
    Compatibility.process_entries isCompat getAdj clean OnError.ignore es = .ok [] := by
  induction es with
  | nil => rfl
  | cons e rest ih =>
    obtain ⟨err, he, hc⟩ := h e (by simp)
    rw [Compatibility.process_entries, he]
    simp [hc, ih fun x hx => h x (by simp [hx])]

/-- Replacing the adjustment list by itself is the identity. -/
theorem Entry.withAdjustments_self (e : Entry) :
    e.withAdjustments e.energy_adjustments = e := rfl

/-- `entryOutcome` with `clean = False` on an entry whose `get_adjustments`
succeeds, in closed form. -/
theorem entryOutcome_ok {ε : Type} (getAdj : Entry → Except ε (List EA))
    (e : Entry) (adjs : List EA) (hget : getAdj e = .ok adjs) :
    entryOutcome getAdj false e =
      .ok (e.withAdjustments (applyAdj (e.energy_adjustments, false) adjs).1,
        !(applyAdj (e.energy_adjustments, false) adjs).2) := by
  simp [entryOutcome, cleanEntry, hget]

/-- The batch loop on a one-entry batch, in closed form. -/
theorem process_entries_singleton {ε : Type} (isCompat : ε → Bool)
    (getAdj : Entry → Except ε (List EA)) (clean : Bool) (on_error : OnError)
    (e e1 : Entry) (acc : Bool) (h : entryOutcome getAdj clean e = .ok (e1, acc)) :
    Compatibility.process_entries isCompat getAdj clean on_error [e] =
      .ok (if acc then [e1] else []) := by
  rw [Compatibility.process_entries, h, Compatibility.process_entries]

/-- Claim C2: with the default `on_error = "ignore"` policy,
`Compatibility.process_entries` never propagates a `CompatibilityError` raised
for an individual entry: it always returns `.ok`, and the returned list is the
order-preserving subsequence of accepted per-entry outcomes of the (in-place
processed) input batch, hence never longer than the input. -/
theorem process_entries_ignore_subsequence {ε : Type}
    (getAdj : Entry → Except ε (List EA)) (clean : Bool) (es : List Entry) :
    Compatibility.process_entries (fun _ => true) getAdj clean OnError.ignore es =
        .ok (es.filterMap (acceptFn getAdj clean))
      ∧ (es.filterMap (acceptFn getAdj clean)).Sublist
          (es.map (postEntry getAdj clean))
      ∧ (es.filterMap (acceptFn getAdj clean)).length ≤ es.length :=
  ⟨process_entries_ignore_never_raises getAdj clean es,
   filterMap_accept_sublist getAdj clean es,
   le_trans (filterMap_accept_sublist getAdj clean es).length_le (by simp)⟩

/-- A scheme-produced adjustment fixture (value 5). -/
def eaLow : EA := EA.const "MP2020 anion correction (S)" "scheme" 5 none

/-- A same-name, same-provenance adjustment with a different value (7). -/
def eaHigh : EA := EA.const "MP2020 anion correction (S)" "scheme" 7 none

/-- A neutral composition fixture. -/
def baseComp : Comp :=
  { amounts := [], reduced_formula := "", reduced_amounts := [], factor := 1 }

/-- A neutral entry fixture used by concrete witnesses. -/
def baseEntry : Entry :=
  { comp := baseComp, uncorrected_energy := 0, run_type := some "GGA",
    software := none, potcar_ok := true, hubbards := none,
    sulfide_type_data := none, oxide_type_data := none, has_structure := false,
    struct_sulfide_type := "sulfide", struct_oxide_type := "oxide",
    oxi_states_data := none, oxi_guess := [], energy_adjustments := [] }

/-- An entry carrying both the exact scheme-produced triple and a same-named,
same-provenance, differently-valued adjustment. -/
def conflictEntry : Entry := { baseEntry with energy_adjustments := [eaLow, eaHigh] }

/-- An entry carrying only the same-named, differently-valued adjustment. -/
def conflictEntry2 : Entry := { baseEntry with energy_adjustments := [eaHigh] }

/-- Claim C1 counterexample: `conflictEntry` carries an adjustment (`eaHigh`)
with the same name and provenance as the scheme-computed `eaLow` but a
different value, yet `process_entries` (with `clean = False`) keeps the entry
in its output unchanged, because the exact-triple skip branch is checked first
and `eaLow` is also carried.  This refutes the claim's final sentence ("such an
entry is never in the output"). -/
theorem process_entries_conflict_literal_cex :
    (eaHigh ∈ conflictEntry.energy_adjustments
      ∧ eaHigh.name = eaLow.name ∧ eaHigh.cls = eaLow.cls ∧ eaHigh.value ≠ eaLow.value)
    ∧ Compatibility.process_entries (fun _ => true)
        (fun _ => (Except.ok [eaLow] : Except Unit (List EA))) false
        OnError.ignore [conflictEntry] = Except.ok [conflictEntry] := by
  decide

/-- Claim C1 (amended): for each scheme-computed adjustment, checked in order
against the entry's current adjustment list: an exact (name, provenance, value)
match is skipped; otherwise a (name, provenance) match with a different value
excludes the entry from the output; otherwise the adjustment is appended.  An
entry carrying a same-name, same-provenance, differently-valued adjustment and
no exact-triple match for it is excluded. -/
theorem process_entries_dedup_laws {ε : Type} (getAdj : Entry → Except ε (List EA))
    (e : Entry) (adjs : List EA) (on_error : OnError)
    (hget : getAdj e = .ok adjs) :
    ((∀ ea ∈ adjs, ea.dedupTriple ∈ e.energy_adjustments.map EA.dedupTriple) →
      Compatibility.process_entries (fun _ => true) getAdj false on_error [e] =
        .ok [e])
    ∧ ((∃ ea ∈ adjs, ea.dedupPair ∈ e.energy_adjustments.map EA.dedupPair ∧
          ∀ x ∈ e.energy_adjustments,
            x.dedupPair = ea.dedupPair → x.dedupTriple ≠ ea.dedupTriple) →
      Compatibility.process_entries (fun _ => true) getAdj false on_error [e] =
        .ok [])
    ∧ (∀ ea, adjs = [ea] → ea.dedupPair ∉ e.energy_adjustments.map EA.dedupPair →
      Compatibility.process_entries (fun _ => true) getAdj false on_error [e] =
        .ok [e.withAdjustments (e.energy_adjustments ++ [ea])]) := by
  refine ⟨fun hskip => ?_, fun hconf => ?_, fun ea hadj hpair => ?_⟩
  · have hr := applyAdj_skip_all adjs e.energy_adjustments false hskip
    have h := entryOutcome_ok getAdj e adjs hget
    rw [hr] at h
    rw [process_entries_singleton (fun _ => true) getAdj false on_error e
      (e.withAdjustments e.energy_adjustments) true (by simpa using h)]
    rw [Entry.withAdjustments_self]
    rfl
  · obtain ⟨ea, hmem, hpair, hval⟩ := hconf
    have hr := applyAdj_conflict adjs ea e.energy_adjustments false hmem hpair hval
    have h := entryOutcome_ok getAdj e adjs hget
    rw [process_entries_singleton (fun _ => true) getAdj false on_error e
      (e.withAdjustments (applyAdj (e.energy_adjustments, false) adjs).1) false
      (by rw [h, hr]; rfl)]
    rfl
  · subst hadj
    have htrip : ea.dedupTriple ∉ e.energy_adjustments.map EA.dedupTriple := by
      intro hc
      obtain ⟨x, hx, hxe⟩ := List.mem_map.mp hc
      exact hpair (List.mem_map.mpr ⟨x, hx, EA.dedupPair_eq_of_triple_eq hxe⟩)
    have hr : applyAdj (e.energy_adjustments, false) [ea] =
        (e.energy_adjustments ++ [ea], false) := by
      rw [applyAdj, if_neg htrip, if_neg hpair, applyAdj]
    have h := entryOutcome_ok getAdj e [ea] hget
    rw [hr] at h
    rw [process_entries_singleton (fun _ => true) getAdj false on_error e
      (e.withAdjustments (e.energy_adjustments ++ [ea])) true (by simpa using h)]
    rfl

/-- Claim C1 witness: an entry carrying only the conflicting `eaHigh` is
excluded when the scheme computes `eaLow`. -/
theorem process_entries_dedup_laws_witness :
    Compatibility.process_entries (fun _ => true)
      (fun _ => (Except.ok [eaLow] : Except Unit (List EA))) false
      OnError.ignore [conflictEntry2] = Except.ok [] :=
  (process_entries_dedup_laws (fun _ => (Except.ok [eaLow] : Except Unit (List EA)))
    conflictEntry2 [eaLow] OnError.ignore rfl).2.1
    ⟨eaLow, by decide, by decide, by decide⟩

/-- An electronegativity fixture (Pauling values as exact rationals) for the
elements the concrete witnesses use. -/
def chiX : String → ℚ := fun s =>
  if s = "H" then 3
  else if s = "Na" then 1
  else if s = "Fe" then 2
  else if s = "S" then 4
  else if s = "O" then 5
  else if s = "F" then 6
  else 0

/-- A concrete MP2020-style scheme fixture with composition-correction and
GGA/GGA+U mixing tables. -/
def mpScheme : MaterialsProject2020Compatibility :=
  { compat_type := "Advanced", correct_peroxide := true, check_potcar := false,
    comp_correction :=
      [("S", -5), ("oxide", -7), ("peroxide", -4), ("superoxide", -1),
       ("Br", -6), ("I", -3), ("Se", -4), ("Si", 1), ("Sb", -2), ("Te", -4),
       ("H", -1), ("N", -3), ("F", -2), ("Cl", -6)],
    comp_errors := [("S", 1), ("oxide", 1), ("F", 1)],
    u_corrections := [("O", [("Fe", -3)]), ("F", [("Fe", -3)])],
    u_settings := [("O", [("Fe", 5)]), ("F", [("Fe", 5)])],
    u_errors := [("O", [("Fe", 1)])],
    cls := "MP2020" }

/-- An elemental iron composition. -/
def feComp : Comp :=
  { amounts := [("Fe", 2)], reduced_formula := "Fe",
    reduced_amounts := [("Fe", 1)], factor := 2 }

/-- An elemental iron entry with a Hubbard U that matches no mandated
setting. -/
def feEntry : Entry := { baseEntry with comp := feComp, hubbards := some [("Fe", 99)] }

/-- Claim C10: after the run-type and POTCAR checks pass, a single-element
composition makes `MaterialsProject2020Compatibility.get_adjustments` return
`[]` immediately, skipping the sulfide, oxide, anion, and U-mixing blocks, so
no Hubbard-U mismatch can reject an elemental entry. -/
theorem mp2020_single_element_skip (c : MaterialsProject2020Compatibility)
    (X : String → ℚ) (e : Entry)
    (hrun : e.run_type = some "GGA" ∨ e.run_type = some "GGA+U")
    (hpot : ¬(e.software.getD "vasp" = "vasp" ∧ c.check_potcar = true ∧
      e.potcar_ok = false))
    (hone : e.comp.num_elements = 1) :
    c.get_adjustments X e = .ok [] := by
  rw [MaterialsProject2020Compatibility.get_adjustments,
    if_neg (not_not_intro hrun), if_neg hpot, if_pos hone]

/-- Claim C10 witness: the elemental Fe entry with an off-mandate Hubbard U is
accepted with zero corrections. -/
theorem mp2020_single_element_skip_witness :
    (feEntry.run_type = some "GGA" ∨ feEntry.run_type = some "GGA+U")
    ∧ feEntry.comp.num_elements = 1
    ∧ feEntry.hubbards = some [("Fe", 99)]
    ∧ mpScheme.get_adjustments chiX feEntry = Except.ok [] :=
  ⟨by decide, by decide, by decide,
   mp2020_single_element_skip mpScheme chiX feEntry (by decide) (by decide)
     (by decide)⟩

/-- Claim C8: `GasCorrection.get_correction` returns
`table[rform] * num_atoms - uncorrected_energy` with zero uncertainty when the
reduced formula is in the compound-energy table (so the corrected energy is the
table value per atom times the atom count), and exactly zero with zero
uncertainty otherwise. -/
theorem gas_correction_value (g : GasCorrection) (e : Entry) :
    (∀ v, List.lookup e.comp.reduced_formula g.cpd_energies = some v →
      g.get_correction e =
          { val := v * e.comp.num_atoms - e.uncorrected_energy, var := 0 }
        ∧ e.uncorrected_energy + (g.get_correction e).val = v * e.comp.num_atoms)
    ∧ (List.lookup e.comp.reduced_formula g.cpd_energies = none →
      g.get_correction e = { val := 0, var := 0 }) := by
  constructor
  · intro v hv
    constructor
    · simp [GasCorrection.get_correction, hv]
    · simp [GasCorrection.get_correction, hv]
  · intro h
    simp [GasCorrection.get_correction, h]

/-- A gas-correction scheme fixture holding the O2 compound energy. -/
def gasScheme : GasCorrection :=
  { name := "MP", cpd_energies := [("O2", -4948/1000)] }

/-- An O2 composition. -/
def o2Comp : Comp :=
  { amounts := [("O", 2)], reduced_formula := "O2",
    reduced_amounts := [("O", 2)], factor := 1 }

/-- An O2 gas entry with uncorrected energy -9 eV. -/
def o2Entry : Entry := { baseEntry with comp := o2Comp, uncorrected_energy := -9 }

/-- An N2 entry, absent from the gas table. -/
def n2Entry : Entry :=
  { baseEntry with
    comp := { amounts := [("N", 2)], reduced_formula := "N2",
              reduced_amounts := [("N", 2)], factor := 1 },
    uncorrected_energy := -9 }

/-- Claim C8 witness: the O2 scenario (corrected energy is the table value per
atom times 2) and a formula absent from the table. -/
theorem gas_correction_value_witness :
    (gasScheme.get_correction o2Entry =
        { val := -4948/1000 * o2Entry.comp.num_atoms - o2Entry.uncorrected_energy,
          var := 0 }
      ∧ o2Entry.uncorrected_energy + (gasScheme.get_correction o2Entry).val =
          -4948/1000 * o2Entry.comp.num_atoms)
    ∧ gasScheme.get_correction n2Entry = { val := 0, var := 0 } :=
  ⟨(gas_correction_value gasScheme o2Entry).1 (-4948/1000)
     (by norm_num [o2Entry, o2Comp, baseEntry, gasScheme, List.lookup]),
   (gas_correction_value gasScheme n2Entry).2
     (by norm_num [n2Entry, baseEntry, gasScheme, List.lookup]; decide)⟩

/-- Distinct anions of the fixed list produce distinct adjustment names. -/
theorem anion_name_inj :
    ∀ a ∈ anionList, ∀ b ∈ anionList,
      ("MP2020 anion correction (" ++ a ++ ")" : String) =
        "MP2020 anion correction (" ++ b ++ ")" → a = b := by decide

/-- A sodium fluoride composition. -/
def nafComp : Comp :=
  { amounts := [("Na", 1), ("F", 1)], reduced_formula := "NaF",
    reduced_amounts := [("Na", 1), ("F", 1)], factor := 1 }

/-- A NaF entry whose pre-populated oxidation-state data assigns fluorine the
non-negative state 0. -/
def nafEntry : Entry :=
  { baseEntry with comp := nafComp, oxi_states_data := some [("Na", 1), ("F", 0)] }

/-- Claim C3 counterexample: the NaF entry has oxidation-state data available
and it assigns F a non-negative state, yet
`MaterialsProject2020Compatibility.get_adjustments` still applies the F anion
correction, because F is the most electronegative element present — the code's
most-electronegative fallback is not restricted to the no-oxidation-state-data
case. -/
theorem anion_correction_nonneg_oxi_cex :
    nafEntry.oxi_states_data = some [("Na", 1), ("F", 0)]
    ∧ (List.lookup "F" nafEntry.effOxiStates).getD 0 = 0
    ∧ mpScheme.get_adjustments chiX nafEntry =
        Except.ok [EA.compScaled "MP2020 anion correction (F)" "MP2020" (-2) 1
          (some 1)] := by
  decide

/-- Claim C3 (amended): for every anion of the fixed list present in the
composition and present in the composition-correction table, the per-atom
anion correction of the loop at lines 1035-1056 is applied exactly when the
entry's oxidation state for that element (defaulting to 0) is negative or the
element is the most electronegative element present — availability of
oxidation-state data does not disable the most-electronegative fallback. -/
theorem anion_correction_applied_iff (c : MaterialsProject2020Compatibility)
    (X : String → ℚ) (e : Entry) (anion : String) (v : ℚ)
    (hanion : anion ∈ anionList)
    (hpresent : e.comp.hasElement anion = true)
    (hv : List.lookup anion c.comp_correction = some v) :
    (EA.compScaled ("MP2020 anion correction (" ++ anion ++ ")") c.cls v
        (e.comp.get anion) (some ((List.lookup anion c.comp_errors).getD 0))
      ∈ c.anion_adjustments X e)
    ↔ ((List.lookup anion e.effOxiStates).getD 0 < 0 ∨
        anion = mostElectroneg X e.comp) := by
  unfold MaterialsProject2020Compatibility.anion_adjustments
  rw [List.mem_filterMap]
  constructor
  · rintro ⟨a, ha, hfa⟩
    split at hfa
    · split at hfa
      · rename_i hcond1 hcond2
        simp only [Option.some.injEq, EA.compScaled.injEq] at hfa
        have haeq : a = anion := anion_name_inj a ha anion hanion hfa.1
        subst haeq
        simpa using hcond2
      · cases hfa
    · cases hfa
  · intro hcond
    refine ⟨anion, hanion, ?_⟩
    have hcond1 : (e.comp.hasElement anion &&
        (List.lookup anion c.comp_correction).isSome) = true := by
      rw [hpresent, hv]
      rfl
    have hcond2 : (decide ((List.lookup anion e.effOxiStates).getD 0 < 0) ||
        decide (anion = mostElectroneg X e.comp)) = true := by
      rcases hcond with h | h
      · simp [h]
      · simp [h]
    rw [if_pos hcond1, if_pos hcond2, hv]
    rfl

/-- Claim C3 witness: the F anion correction is a member of the anion-loop
output for the NaF entry because F is the most electronegative element
present. -/
theorem anion_correction_applied_iff_witness :
    "F" ∈ anionList
    ∧ nafEntry.comp.hasElement "F" = true
    ∧ EA.compScaled "MP2020 anion correction (F)" "MP2020" (-2) 1 (some 1)
        ∈ mpScheme.anion_adjustments chiX nafEntry := by
  refine ⟨by decide, by decide, ?_⟩
  have h := (anion_correction_applied_iff mpScheme chiX nafEntry "F" (-2)
    (by decide) (by decide) (by decide)).mpr (Or.inr (by decide))
  simpa [nafEntry, nafComp, baseEntry, mpScheme, Comp.get, List.lookup] using h

/-- The Hubbard-U mismatch condition of the U-mixing check: some element of
the list has a used Hubbard U (defaulting to 0) differing from the mandated
one (defaulting to 0). -/
def uMismatch (calc_u u_set : List (String × ℚ)) (syms : List String) : Prop :=
  ∃ sym ∈ syms, (List.lookup sym calc_u).getD 0 ≠ (List.lookup sym u_set).getD 0

instance uMismatch.decidable (calc_u u_set : List (String × ℚ))
    (syms : List String) : Decidable (uMismatch calc_u u_set syms) := by
  unfold uMismatch
  infer_instance

/-- The `UCorrection` element loop raises exactly when some element has a
mismatched Hubbard U. -/
theorem uValLoop_error_iff (calc_u u_set u_corr u_err : List (String × ℚ))
    (comp : Comp) (syms : List String) :
    uValLoop calc_u u_set u_corr u_err comp syms = .error () ↔
      uMismatch calc_u u_set syms := by
  induction syms with
  | nil => simp [uValLoop, uMismatch]
  | cons s rest ih =>
    rw [uValLoop]
    by_cases h : (List.lookup s calc_u).getD 0 = (List.lookup s u_set).getD 0
    · rw [if_neg (not_not_intro h)]
      cases hr : uValLoop calc_u u_set u_corr u_err comp rest with
      | error err =>
        cases err
        refine ⟨fun _ => ?_, fun _ => rfl⟩
        obtain ⟨sym, hmem, hne⟩ := ih.mp hr
        exact ⟨sym, List.mem_cons_of_mem s hmem, hne⟩
      | ok u =>
        have hnr : ¬ uMismatch calc_u u_set rest := by
          intro hm
          rw [ih.mpr hm] at hr
          cases hr
        constructor
        · intro hc
          simp only [] at hc
          by_cases hb : (List.lookup s u_corr).isSome = true
          · rw [if_pos hb] at hc
            cases hc
          · rw [if_neg hb] at hc
            cases hc
        · rintro ⟨sym, hmem, hne⟩
          rcases List.mem_cons.mp hmem with rfl | hmem'
          · exact absurd h hne
          · exact absurd ⟨sym, hmem', hne⟩ hnr
    · rw [if_pos h]
      exact ⟨fun _ => ⟨s, List.mem_cons_self s rest, h⟩, fun _ => rfl⟩

/-- Without a mismatch, the `UCorrection` loop returns the sum of the table
corrections scaled by the atom counts. -/
theorem uValLoop_ok_val (calc_u u_set u_corr u_err : List (String × ℚ))
    (comp : Comp) (syms : List String) (h : ¬ uMismatch calc_u u_set syms) :
    ∃ u, uValLoop calc_u u_set u_corr u_err comp syms = .ok u ∧
      u.val = (syms.map fun sym =>
        if (List.lookup sym u_corr).isSome then
          (List.lookup sym u_corr).getD 0 * comp.get sym
        else 0).sum := by
  induction syms with
  | nil => exact ⟨⟨0, 0⟩, rfl, by simp⟩
  | cons s rest ih =>
    have hs : (List.lookup s calc_u).getD 0 = (List.lookup s u_set).getD 0 := by
      by_contra hc
      exact h ⟨s, List.mem_cons_self s rest, hc⟩
    obtain ⟨u, hu, hval⟩ := ih fun hm => h (by
      obtain ⟨sym, hmem, hne⟩ := hm
      exact ⟨sym, List.mem_cons_of_mem s hmem, hne⟩)
    rw [uValLoop, if_neg (not_not_intro hs)]
    simp only [hu]
    by_cases hc : (List.lookup s u_corr).isSome = true
    · refine ⟨_, by rw [if_pos hc], ?_⟩
      simp [hc, hval]
    · refine ⟨u, by rw [if_neg hc], ?_⟩
      simp only [Bool.not_eq_true] at hc
      simp [hc, hval]

/-- The MP2020 mixing loop raises exactly when some element has a mismatched
Hubbard U. -/
theorem mp2020_u_loop_error_iff (calc_u u_set u_corr u_err : List (String × ℚ))
    (cls : String) (comp : Comp) (syms : List String) :
    mp2020_u_loop calc_u u_set u_corr u_err cls comp syms = .error () ↔
      uMismatch calc_u u_set syms := by
  induction syms with
  | nil => simp [mp2020_u_loop, uMismatch]
  | cons s rest ih =>
    rw [mp2020_u_loop]
    by_cases h : (List.lookup s calc_u).getD 0 = (List.lookup s u_set).getD 0
    · rw [if_neg (not_not_intro h)]
      cases hr : mp2020_u_loop calc_u u_set u_corr u_err cls comp rest with
      | error err =>
        cases err
        refine ⟨fun _ => ?_, fun _ => rfl⟩
        obtain ⟨sym, hmem, hne⟩ := ih.mp hr
        exact ⟨sym, List.mem_cons_of_mem s hmem, hne⟩
      | ok us =>
        have hnr : ¬ uMismatch calc_u u_set rest := by
          intro hm
          rw [ih.mpr hm] at hr
          cases hr
        constructor
        · intro hc
          simp only [] at hc
          by_cases hb : (List.lookup s u_corr).isSome = true
          · rw [if_pos hb] at hc
            cases hc
          · rw [if_neg hb] at hc
            cases hc
        · rintro ⟨sym, hmem, hne⟩
          rcases List.mem_cons.mp hmem with rfl | hmem'
          · exact absurd h hne
          · exact absurd ⟨sym, hmem', hne⟩ hnr
    · rw [if_pos h]
      exact ⟨fun _ => ⟨s, List.mem_cons_self s rest, h⟩, fun _ => rfl⟩

/-- Without a mismatch, the MP2020 mixing loop succeeds and contains one
composition-scaled mixing adjustment for every element of the correction
table present in the composition. -/
theorem mp2020_u_loop_ok (calc_u u_set u_corr u_err : List (String × ℚ))
    (cls : String) (comp : Comp) (syms : List String)
    (h : ¬ uMismatch calc_u u_set syms) :
    ∃ us, mp2020_u_loop calc_u u_set u_corr u_err cls comp syms = .ok us ∧
      ∀ sym v, sym ∈ syms → List.lookup sym u_corr = some v →
        EA.compScaled ("MP2020 GGA/GGA+U mixing correction (" ++ sym ++ ")") cls v
          (comp.get sym) (some ((List.lookup sym u_err).getD 0)) ∈ us := by
  induction syms with
  | nil => exact ⟨[], rfl, by intro sym v hm; cases hm⟩
  | cons s rest ih =>
    have hs : (List.lookup s calc_u).getD 0 = (List.lookup s u_set).getD 0 := by
      by_contra hc
      exact h ⟨s, List.mem_cons_self s rest, hc⟩
    obtain ⟨us, hus, hmemf⟩ := ih fun hm => h (by
      obtain ⟨sym, hmem, hne⟩ := hm
      exact ⟨sym, List.mem_cons_of_mem s hmem, hne⟩)
    rw [mp2020_u_loop, if_neg (not_not_intro hs)]
    simp only [hus]
    by_cases hc : (List.lookup s u_corr).isSome = true
    · refine ⟨_, by rw [if_pos hc], ?_⟩
      intro sym v hm hv
      rcases List.mem_cons.mp hm with rfl | hm'
      · rw [hv]
        exact List.mem_cons_self _ _
      · exact List.mem_cons_of_mem _ (hmemf sym v hm' hv)
    · refine ⟨us, by rw [if_neg hc], ?_⟩
      intro sym v hm hv
      rcases List.mem_cons.mp hm with rfl | hm'
      · exact absurd (by rw [hv]; rfl) hc
      · exact hmemf sym v hm' hv

/-- Claim C7: for a multi-element entry passing the run-type and POTCAR checks,
both `UCorrection.get_correction` and the fused
`MaterialsProject2020Compatibility.get_adjustments` raise `CompatibilityError`
exactly when some element present in the composition has a used Hubbard U
different from the mandated one (both keyed by the most electronegative
element, defaulting to 0); absent a mismatch, `UCorrection` returns the sum of
per-atom-count-scaled table corrections and the fused scheme emits one mixing
adjustment per table element present. -/
theorem u_mixing_check_iff (c : MaterialsProject2020Compatibility)
    (u : UCorrectionScheme) (X : String → ℚ) (e : Entry)
    (hrun : e.run_type = some "GGA" ∨ e.run_type = some "GGA+U")
    (hpot : ¬(e.software.getD "vasp" = "vasp" ∧ c.check_potcar = true ∧
      e.potcar_ok = false))
    (hmulti : e.comp.num_elements ≠ 1) :
    (u.get_correction X e = .error () ↔
      uMismatch (e.hubbards.getD [])
        ((List.lookup (mostElectroneg X e.comp) u.u_settings).getD [])
        e.comp.elements)
    ∧ (¬ uMismatch (e.hubbards.getD [])
          ((List.lookup (mostElectroneg X e.comp) u.u_settings).getD [])
          e.comp.elements →
        ∃ uf, u.get_correction X e = .ok uf ∧
          uf.val = (e.comp.elements.map fun sym =>
            if (List.lookup sym
                ((List.lookup (mostElectroneg X e.comp) u.u_corrections).getD [])).isSome
            then (List.lookup sym
                ((List.lookup (mostElectroneg X e.comp) u.u_corrections).getD [])).getD 0
                * e.comp.get sym
            else 0).sum)
    ∧ (c.get_adjustments X e = .error () ↔
      uMismatch (e.hubbards.getD [])
        ((List.lookup (mostElectroneg X e.comp) c.u_settings).getD [])
        e.comp.elements)
    ∧ (¬ uMismatch (e.hubbards.getD [])
          ((List.lookup (mostElectroneg X e.comp) c.u_settings).getD [])
          e.comp.elements →
        ∃ us, mp2020_u_loop (e.hubbards.getD [])
            ((List.lookup (mostElectroneg X e.comp) c.u_settings).getD [])
            ((List.lookup (mostElectroneg X e.comp) c.u_corrections).getD [])
            ((List.lookup (mostElectroneg X e.comp) c.u_errors).getD []) c.cls
            e.comp e.comp.elements = .ok us
          ∧ c.get_adjustments X e = .ok (c.sulfide_adjustments e ++
              c.oxide_adjustments e ++ c.anion_adjustments X e ++ us)
          ∧ ∀ sym v, sym ∈ e.comp.elements →
              List.lookup sym
                ((List.lookup (mostElectroneg X e.comp) c.u_corrections).getD []) =
                some v →
              EA.compScaled ("MP2020 GGA/GGA+U mixing correction (" ++ sym ++ ")")
                c.cls v (e.comp.get sym)
                (some ((List.lookup sym
                  ((List.lookup (mostElectroneg X e.comp) c.u_errors).getD [])).getD 0))
                ∈ us) := by
  have hget : c.get_adjustments X e =
      (match mp2020_u_loop (e.hubbards.getD [])
          ((List.lookup (mostElectroneg X e.comp) c.u_settings).getD [])
          ((List.lookup (mostElectroneg X e.comp) c.u_corrections).getD [])
          ((List.lookup (mostElectroneg X e.comp) c.u_errors).getD []) c.cls
          e.comp e.comp.elements with
        | Except.error err => Except.error err
        | Except.ok us => Except.ok (c.sulfide_adjustments e ++
            c.oxide_adjustments e ++ c.anion_adjustments X e ++ us)) := by
    rw [MaterialsProject2020Compatibility.get_adjustments,
      if_neg (not_not_intro hrun), if_neg hpot, if_neg hmulti]
  refine ⟨?_, ?_, ?_, ?_⟩
  · simp only [UCorrectionScheme.get_correction]
    exact uValLoop_error_iff _ _ _ _ _ _
  · intro hm
    simp only [UCorrectionScheme.get_correction]
    exact uValLoop_ok_val _ _ _ _ _ _ hm
  · rw [hget]
    cases hloop : mp2020_u_loop (e.hubbards.getD [])
        ((List.lookup (mostElectroneg X e.comp) c.u_settings).getD [])
        ((List.lookup (mostElectroneg X e.comp) c.u_corrections).getD [])
        ((List.lookup (mostElectroneg X e.comp) c.u_errors).getD []) c.cls
        e.comp e.comp.elements with
    | error err =>
      cases err
      exact ⟨fun _ => (mp2020_u_loop_error_iff _ _ _ _ _ _ _).mp hloop,
        fun _ => rfl⟩
    | ok us =>
      constructor
      · intro hc
        cases hc
      · intro hm
        rw [(mp2020_u_loop_error_iff _ _ _ _ _ _ _).mpr hm] at hloop
        cases hloop
  · intro hm
    obtain ⟨us, hus, hmemf⟩ := mp2020_u_loop_ok (e.hubbards.getD [])
      ((List.lookup (mostElectroneg X e.comp) c.u_settings).getD [])
      ((List.lookup (mostElectroneg X e.comp) c.u_corrections).getD [])
      ((List.lookup (mostElectroneg X e.comp) c.u_errors).getD []) c.cls
      e.comp e.comp.elements hm
    refine ⟨us, hus, ?_, hmemf⟩
    rw [hget]
    simp only [hus]

/-- An Fe2O3 composition. -/
def fe2o3Comp : Comp :=
  { amounts := [("Fe", 2), ("O", 3)], reduced_formula := "Fe2O3",
    reduced_amounts := [("Fe", 2), ("O", 3)], factor := 1 }

/-- An Fe2O3 entry whose Hubbard U on Fe matches the mandated value. -/
def fe2o3Matched : Entry :=
  { baseEntry with
    comp := fe2o3Comp, run_type := some "GGA+U",
    hubbards := some [("Fe", 5)], oxide_type_data := some "oxide",
    oxi_states_data := some [("Fe", 3), ("O", -2)] }

/-- The same Fe2O3 entry with a mismatched (zero) Hubbard U. -/
def fe2o3Mismatched : Entry := { fe2o3Matched with hubbards := some [("Fe", 0)] }

/-- A `UCorrection` fixture sharing the MP2020 mixing tables. -/
def uScheme : UCorrectionScheme :=
  { u_settings := mpScheme.u_settings, u_corrections := mpScheme.u_corrections,
    u_errors := mpScheme.u_errors }

/-- Claim C7 witness: Fe2O3 with matching U passes and receives the mixing
correction; the same composition with U = 0 is rejected. -/
theorem u_mixing_check_iff_witness :
    mpScheme.get_adjustments chiX fe2o3Mismatched = Except.error ()
    ∧ (∃ uf, uScheme.get_correction chiX fe2o3Matched = Except.ok uf ∧
        uf.val = -6)
    ∧ (∃ us, mp2020_u_loop (fe2o3Matched.hubbards.getD [])
        ((List.lookup (mostElectroneg chiX fe2o3Matched.comp)
          mpScheme.u_settings).getD [])
        ((List.lookup (mostElectroneg chiX fe2o3Matched.comp)
          mpScheme.u_corrections).getD [])
        ((List.lookup (mostElectroneg chiX fe2o3Matched.comp)
          mpScheme.u_errors).getD [])
        mpScheme.cls fe2o3Matched.comp fe2o3Matched.comp.elements = Except.ok us
      ∧ EA.compScaled ("MP2020 GGA/GGA+U mixing correction (" ++ "Fe" ++ ")")
          mpScheme.cls (-3) (fe2o3Matched.comp.get "Fe")
          (some ((List.lookup "Fe"
            ((List.lookup (mostElectroneg chiX fe2o3Matched.comp)
              mpScheme.u_errors).getD [])).getD 0)) ∈ us) := by
  refine ⟨?_, ?_, ?_⟩
  · exact ((u_mixing_check_iff mpScheme uScheme chiX fe2o3Mismatched (by decide)
      (by decide) (by decide)).2.2.1).mpr (by decide)
  · obtain ⟨uf, h1, h2⟩ := (u_mixing_check_iff mpScheme uScheme chiX fe2o3Matched
      (by decide) (by decide) (by decide)).2.1 (by decide)
    refine ⟨uf, h1, ?_⟩
    rw [h2]
    norm_num [fe2o3Matched, fe2o3Comp, baseEntry, uScheme, mpScheme, Comp.elements,
      Comp.get, mostElectroneg, sortedElements, List.insertionSort,
      List.orderedInsert, chiX, List.lookup]
    decide
  · obtain ⟨us, hus, _, hmemf⟩ := (u_mixing_check_iff mpScheme uScheme chiX
      fe2o3Matched (by decide) (by decide) (by decide)).2.2.2 (by decide)
    exact ⟨us, hus, hmemf "Fe" (-3) (by decide) (by decide)⟩

/-- The aqueous `get_adjustments` in closed form once the three reference
values are set. -/
theorem aq_get_adjustments_eq (st : AqState) (cls : String) (e : Entry)
    (o2e h2oe w : ℚ) (h1 : st.o2_energy = some o2e)
    (h2 : st.h2o_energy = some h2oe) (h3 : st.h2o_adjustments = some w) :
    MaterialsProjectAqueousCompatibility.get_adjustments st cls e =
      (match (if e.comp.reduced_formula = "H2" then
          match st.h2_energy with
          | none => Except.error AqErr.assertFail
          | some h2e => Except.ok [EA.const "MP Aqueous H2 / H2O referencing" cls
              ((fitH2Energy o2e h2oe - h2e) * e.comp.num_atoms) none]
        else Except.ok []) with
      | Except.error err => Except.error err
      | Except.ok l1 => Except.ok (l1 ++
          (match List.lookup e.comp.reduced_formula cpd_entropies with
           | some s => [EA.tempScaled "Compound entropy at room temperature" cls
               (-s / 298) 298 e.comp.num_atoms none]
           | none => []) ++
          (if e.comp.reduced_formula ≠ "H2O" then
            if 0 < aqNH2O e.comp then
              [EA.compScaled "MP Aqueous hydrate" cls ((-1) * (w * 3 + MU_H2O))
                (aqNH2O e.comp) none]
            else []
          else []))) := by
  unfold MaterialsProjectAqueousCompatibility.get_adjustments
  rw [h1, h2, h3]

/-- Claim C5: when the aqueous scheme succeeds on an entry, the returned list
carries exactly one `MP Aqueous hydrate` adjustment — with per-water value
`-(3*h2o_adjustments + MU_H2O)` and atom count `nH2O` — precisely when the
reduced formula is not H2O and `nH2O = int(min(H/2, O)) * factor > 0` counted
on the reduced composition, and none otherwise. -/
theorem aqueous_hydrate_adjustment (st : AqState) (cls : String) (e : Entry)
    (o2e h2oe w : ℚ) (h1 : st.o2_energy = some o2e)
    (h2 : st.h2o_energy = some h2oe) (h3 : st.h2o_adjustments = some w) :
    ∀ l, MaterialsProjectAqueousCompatibility.get_adjustments st cls e =
        Except.ok l →
      l.filter (fun ea => ea.name == "MP Aqueous hydrate") =
        (if e.comp.reduced_formula ≠ "H2O" ∧ 0 < aqNH2O e.comp then
          [EA.compScaled "MP Aqueous hydrate" cls ((-1) * (w * 3 + MU_H2O))
            (aqNH2O e.comp) none]
        else []) := by
  intro l hl
  rw [aq_get_adjustments_eq st cls e o2e h2oe w h1 h2 h3] at hl
  have hfilter : ∀ l1 : List EA,
      (∀ ea ∈ l1, (ea.name == "MP Aqueous hydrate") = false) →
      l = l1 ++
        (match List.lookup e.comp.reduced_formula cpd_entropies with
         | some s => [EA.tempScaled "Compound entropy at room temperature" cls
             (-s / 298) 298 e.comp.num_atoms none]
         | none => []) ++
        (if e.comp.reduced_formula ≠ "H2O" then
          if 0 < aqNH2O e.comp then
            [EA.compScaled "MP Aqueous hydrate" cls ((-1) * (w * 3 + MU_H2O))
              (aqNH2O e.comp) none]
          else []
        else []) →
      l.filter (fun ea => ea.name == "MP Aqueous hydrate") =
        (if e.comp.reduced_formula ≠ "H2O" ∧ 0 < aqNH2O e.comp then
          [EA.compScaled "MP Aqueous hydrate" cls ((-1) * (w * 3 + MU_H2O))
            (aqNH2O e.comp) none]
        else []) := by
    intro l1 hl1 hleq
    subst hleq
    rw [List.filter_append, List.filter_append]
    rw [List.filter_eq_nil_iff.mpr (by
      intro ea hea
      simpa using hl1 ea hea)]
    have hent : List.filter (fun ea => ea.name == "MP Aqueous hydrate")
        (match List.lookup e.comp.reduced_formula cpd_entropies with
         | some s => [EA.tempScaled "Compound entropy at room temperature" cls
             (-s / 298) 298 e.comp.num_atoms none]
         | none => []) = [] := by
      cases List.lookup e.comp.reduced_formula cpd_entropies with
      | some s => rfl
      | none => rfl
    rw [hent]
    by_cases hw : e.comp.reduced_formula ≠ "H2O"
    · by_cases hn : 0 < aqNH2O e.comp
      · rw [if_pos hw, if_pos hn, if_pos ⟨hw, hn⟩]
        rfl
      · rw [if_pos hw, if_neg hn, if_neg (fun hc => hn hc.2)]
        rfl
    · rw [if_neg hw, if_neg (fun hc => hw hc.1)]
      rfl
  by_cases hr : e.comp.reduced_formula = "H2"
  · rw [if_pos hr] at hl
    cases hh : st.h2_energy with
    | none =>
      rw [hh] at hl
      cases hl
    | some h2e =>
      rw [hh] at hl
      simp only [Except.ok.injEq] at hl
      exact hfilter _ (by
        intro ea hea
        rw [List.mem_singleton] at hea
        subst hea
        rfl) hl.symm
  · rw [if_neg hr] at hl
    simp only [Except.ok.injEq] at hl
    exact hfilter [] (by intro ea hea; cases hea) hl.symm

/-- A hydrate fixture: FeO·2H2O as the composition Fe1 O3 H4. -/
def hydrateComp : Comp :=
  { amounts := [("Fe", 1), ("O", 3), ("H", 4)], reduced_formula := "FeH4O3",
    reduced_amounts := [("Fe", 1), ("O", 3), ("H", 4)], factor := 1 }

/-- A hydrate entry. -/
def hydrateEntry : Entry := { baseEntry with comp := hydrateComp }

/-- An aqueous reference state with all three reference values set. -/
def aqSt : AqState :=
  { o2_energy := some 2, h2o_energy := some 1, h2_energy := none,
    h2o_adjustments := some 1 }

/-- Claim C5 witness: the FeO·2H2O entry receives exactly the one hydrate
adjustment with per-water value -(3*1 + MU_H2O) and atom count 2. -/
theorem aqueous_hydrate_adjustment_witness :
    hydrateEntry.comp.reduced_formula ≠ "H2O"
    ∧ 0 < aqNH2O hydrateEntry.comp
    ∧ aqNH2O hydrateEntry.comp = 2
    ∧ MaterialsProjectAqueousCompatibility.get_adjustments aqSt "aq" hydrateEntry =
        Except.ok [EA.compScaled "MP Aqueous hydrate" "aq"
          ((-1) * ((1 : ℚ) * 3 + MU_H2O)) (aqNH2O hydrateEntry.comp) none]
    ∧ ([EA.compScaled "MP Aqueous hydrate" "aq" ((-1) * ((1 : ℚ) * 3 + MU_H2O))
          (aqNH2O hydrateEntry.comp) none].filter
            (fun ea => ea.name == "MP Aqueous hydrate") =
        (if hydrateEntry.comp.reduced_formula ≠ "H2O" ∧
            0 < aqNH2O hydrateEntry.comp then
          [EA.compScaled "MP Aqueous hydrate" "aq" ((-1) * ((1 : ℚ) * 3 + MU_H2O))
            (aqNH2O hydrateEntry.comp) none]
        else [])) := by
  have hn : aqNH2O hydrateEntry.comp = 2 := by
    unfold aqNH2O
    rw [show List.lookup "H" hydrateEntry.comp.reduced_amounts = some 4 by decide,
      show List.lookup "O" hydrateEntry.comp.reduced_amounts = some 3 by decide,
      show hydrateEntry.comp.factor = 1 by decide]
    norm_num [pyTrunc, min_def]
  have hconc : MaterialsProjectAqueousCompatibility.get_adjustments aqSt "aq"
      hydrateEntry = Except.ok [EA.compScaled "MP Aqueous hydrate" "aq"
        ((-1) * ((1 : ℚ) * 3 + MU_H2O)) (aqNH2O hydrateEntry.comp) none] := by
    rw [aq_get_adjustments_eq aqSt "aq" hydrateEntry 2 1 1 rfl rfl rfl]
    rw [if_neg (by decide), if_pos (by decide), if_pos (by rw [hn]; norm_num)]
    have hent : List.lookup hydrateEntry.comp.reduced_formula cpd_entropies =
        none := by decide
    rw [hent]
    rfl
  exact ⟨by decide, by rw [hn]; norm_num, hn, hconc,
    aqueous_hydrate_adjustment aqSt "aq" hydrateEntry 2 1 1 rfl rfl rfl _ hconc⟩

/-- The aqueous `get_adjustments` raises `CompatibilityError` exactly when one
of the three reference values is unset (the `is None` check of lines
1277-1284 runs before everything else; with all three set the only possible
raise is the H2 assertion, a different exception). -/
theorem aq_get_adjustments_compat_iff (st : AqState) (cls : String) (e : Entry) :
    MaterialsProjectAqueousCompatibility.get_adjustments st cls e =
        Except.error AqErr.compat ↔
      (st.o2_energy = none ∨ st.h2o_energy = none ∨
        st.h2o_adjustments = none) := by
  cases h1 : st.o2_energy with
  | none =>
    refine ⟨fun _ => Or.inl rfl, fun _ => ?_⟩
    unfold MaterialsProjectAqueousCompatibility.get_adjustments
    rw [h1]
  | some o2e =>
    cases h2 : st.h2o_energy with
    | none =>
      refine ⟨fun _ => Or.inr (Or.inl rfl), fun _ => ?_⟩
      unfold MaterialsProjectAqueousCompatibility.get_adjustments
      rw [h1, h2]
    | some h2oe =>
      cases h3 : st.h2o_adjustments with
      | none =>
        refine ⟨fun _ => Or.inr (Or.inr rfl), fun _ => ?_⟩
        unfold MaterialsProjectAqueousCompatibility.get_adjustments
        rw [h1, h2, h3]
      | some w =>
        rw [aq_get_adjustments_eq st cls e o2e h2oe w h1 h2 h3]
        constructor
        · intro hc
          by_cases hr : e.comp.reduced_formula = "H2"
          · rw [if_pos hr] at hc
            cases hh : st.h2_energy <;> rw [hh] at hc <;> simp at hc
          · rw [if_neg hr] at hc
            simp at hc
        · rintro (h | h | h) <;> cases h

/-- The empty list has no first minimum. -/
@[simp] theorem argminEpa_nil : argminEpa [] = none := rfl

/-- Entries surviving the ignoring batch loop keep compositions present in the
input. -/
theorem runIgnore_comp (g : Entry → Except Unit (List EA)) (es : List Entry)
    (x : Entry) (hx : x ∈ runIgnore g es) : ∃ e ∈ es, x.comp = e.comp := by
  unfold runIgnore at hx
  rw [process_entries_ignore_never_raises] at hx
  obtain ⟨e, he, hacc⟩ := List.mem_filterMap.mp hx
  exact ⟨e, he, acceptFn_comp g true e x hacc⟩

/-- A batch without O2 or H2O reduced formulas leaves the unset reference
energies unset through the scan. -/
theorem scanState_no_refs (st : AqState) (es : List Entry)
    (ho : st.o2_energy = none) (hw : st.h2o_energy = none)
    (ha : st.h2o_adjustments = none)
    (hforms : ∀ e ∈ es, e.comp.reduced_formula ≠ "O2" ∧
      e.comp.reduced_formula ≠ "H2O") :
    (scanState st es).o2_energy = none ∧ (scanState st es).h2o_energy = none ∧
      (scanState st es).h2o_adjustments = none := by
  have hfo : es.filter (fun e => e.comp.reduced_formula == "O2") = [] := by
    rw [List.filter_eq_nil_iff]
    intro e he
    simpa using (hforms e he).1
  have hfw : es.filter (fun e => e.comp.reduced_formula == "H2O") = [] := by
    rw [List.filter_eq_nil_iff]
    intro e he
    simpa using (hforms e he).2
  unfold scanState
  rw [hfo, hfw]
  cases hm : argminEpa (es.filter fun e => e.comp.reduced_formula == "H2") with
  | none =>
    simp only [hm, argminEpa_nil]
    split_ifs <;> exact ⟨ho, hw, ha⟩
  | some a =>
    simp only [hm, argminEpa_nil]
    split_ifs <;> exact ⟨ho, hw, ha⟩

/-- An unset O2 reference makes every per-entry outcome a
`CompatibilityError`. -/
theorem aq_entry_outcome_error (st : AqState) (cls : String) (clean : Bool)
    (e : Entry) (ho : st.o2_energy = none) :
    entryOutcome (MaterialsProjectAqueousCompatibility.get_adjustments st cls)
      clean e = .error AqErr.compat := by
  have hg : MaterialsProjectAqueousCompatibility.get_adjustments st cls
      (cleanEntry clean e) = .error AqErr.compat :=
    (aq_get_adjustments_compat_iff st cls (cleanEntry clean e)).mpr (Or.inl ho)
  simp [entryOutcome, hg]

/-- Claim C6: the aqueous `get_adjustments` raises `CompatibilityError` if and
only if one of `o2_energy`, `h2o_energy`, `h2o_adjustments` is unset when it is
called; and a batch with none of them supplied and no discoverable O2/H2O
entries has every entry rejected (the returned list is empty). -/
theorem aqueous_missing_refs_error_iff :
    (∀ (st : AqState) (cls : String) (e : Entry),
      MaterialsProjectAqueousCompatibility.get_adjustments st cls e =
          Except.error AqErr.compat ↔
        (st.o2_energy = none ∨ st.h2o_energy = none ∨
          st.h2o_adjustments = none))
    ∧ ∀ (solid : Option (Entry → Except Unit (List EA))) (cls : String)
        (st : AqState) (entries : List Entry) (clean : Bool),
        st.o2_energy = none → st.h2o_energy = none →
        st.h2o_adjustments = none →
        (∀ e ∈ entries, e.comp.reduced_formula ≠ "O2" ∧
          e.comp.reduced_formula ≠ "H2O") →
        MaterialsProjectAqueousCompatibility.process_entries solid cls st
          entries clean OnError.ignore = Except.ok [] := by
  refine ⟨fun st cls e => aq_get_adjustments_compat_iff st cls e, ?_⟩
  intro solid cls st entries clean ho hw ha hforms
  cases solid with
  | none =>
    simp only [MaterialsProjectAqueousCompatibility.process_entries]
    refine process_entries_all_error _ _ _ _ ?_
    intro x hx
    exact ⟨AqErr.compat, aq_entry_outcome_error _ cls clean x
      (scanState_no_refs st entries ho hw ha hforms).1, by decide⟩
  | some g =>
    simp only [MaterialsProjectAqueousCompatibility.process_entries]
    have hforms1 : ∀ x ∈ runIgnore g entries, x.comp.reduced_formula ≠ "O2" ∧
        x.comp.reduced_formula ≠ "H2O" := by
      intro x hx
      obtain ⟨e, he, hc⟩ := runIgnore_comp g entries x hx
      rw [hc]
      exact hforms e he
    refine process_entries_all_error _ _ _ _ ?_
    intro x hx
    exact ⟨AqErr.compat, aq_entry_outcome_error _ cls clean x
      (scanState_no_refs st _ ho hw ha hforms1).1, by decide⟩

/-- An aqueous state with no reference value supplied. -/
def aqStEmpty : AqState :=
  { o2_energy := none, h2o_energy := none, h2_energy := none,
    h2o_adjustments := none }

/-- Claim C6 witness: the empty-reference state raises CompatibilityError for
any entry, and a batch with no discoverable O2/H2O entry is emptied. -/
theorem aqueous_missing_refs_error_iff_witness :
    MaterialsProjectAqueousCompatibility.get_adjustments aqStEmpty "aq"
        baseEntry = Except.error AqErr.compat
    ∧ MaterialsProjectAqueousCompatibility.process_entries none "aq" aqStEmpty
        [feEntry] false OnError.ignore = Except.ok [] :=
  ⟨(aqueous_missing_refs_error_iff.1 aqStEmpty "aq" baseEntry).mpr (Or.inl rfl),
   aqueous_missing_refs_error_iff.2 none "aq" aqStEmpty [feEntry] false rfl rfl
     rfl (by decide)⟩

/-- Invariant of the `argminEpa` fold: the result is drawn from the
accumulator or the list and minimizes `energy_per_atom`. -/
theorem argminEpa_go (l : List Entry) : ∀ a0 a : Entry,
    l.foldl (fun acc e =>
      match acc with
      | none => some e
      | some a => if e.energy_per_atom < a.energy_per_atom then some e else some a)
      (some a0) = some a →
    (a = a0 ∨ a ∈ l) ∧ a.energy_per_atom ≤ a0.energy_per_atom ∧
      ∀ x ∈ l, a.energy_per_atom ≤ x.energy_per_atom := by
  induction l with
  | nil =>
    intro a0 a h
    simp only [List.foldl_nil, Option.some.injEq] at h
    subst h
    exact ⟨Or.inl rfl, le_refl _, fun x hx => absurd hx (List.not_mem_nil x)⟩
  | cons e rest ih =>
    intro a0 a h
    rw [List.foldl_cons] at h
    simp only [] at h
    by_cases hc : e.energy_per_atom < a0.energy_per_atom
    · rw [if_pos hc] at h
      obtain ⟨hmem, hle, hall⟩ := ih e a h
      refine ⟨Or.inr ?_, le_trans hle (le_of_lt hc), ?_⟩
      · rcases hmem with rfl | hm
        · exact List.mem_cons_self _ _
        · exact List.mem_cons_of_mem _ hm
      · intro x hx
        rcases List.mem_cons.mp hx with rfl | hx'
        · exact hle
        · exact hall x hx'
    · rw [if_neg hc] at h
      obtain ⟨hmem, hle, hall⟩ := ih a0 a h
      refine ⟨?_, hle, ?_⟩
      · rcases hmem with rfl | hm
        · exact Or.inl rfl
        · exact Or.inr (List.mem_cons_of_mem _ hm)
      · intro x hx
        rcases List.mem_cons.mp hx with rfl | hx'
        · exact le_trans hle (not_lt.mp hc)
        · exact hall x hx'

/-- The first minimum returned by `argminEpa` belongs to the list and has the
lowest energy per atom. -/
theorem argminEpa_spec (l : List Entry) (a : Entry) (h : argminEpa l = some a) :
    a ∈ l ∧ ∀ x ∈ l, a.energy_per_atom ≤ x.energy_per_atom := by
  cases l with
  | nil => cases h
  | cons e rest =>
    unfold argminEpa at h
    rw [List.foldl_cons] at h
    simp only [] at h
    obtain ⟨hmem, hle, hall⟩ := argminEpa_go rest e a h
    constructor
    · rcases hmem with rfl | hm
      · exact List.mem_cons_self _ _
      · exact List.mem_cons_of_mem _ hm
    · intro x hx
      rcases List.mem_cons.mp hx with rfl | hx'
      · exact hle
      · exact hall x hx'

/-- The batch scan records the lowest H2 energy per atom when H2 entries are
present. -/
theorem scanState_h2_energy (st : AqState) (es : List Entry) (a : Entry)
    (h : argminEpa (es.filter fun x => x.comp.reduced_formula == "H2") = some a) :
    (scanState st es).h2_energy = some a.energy_per_atom := by
  unfold scanState
  rw [h]

/-- Claim C4 (amended): with the three reference values set, the fitted H2
energy per atom equals round(0.5*(3*(h2o_energy - 0.071963) -
(o2_energy - 0.316731) - MU_H2O), 6); every H2-formula entry receives the
constant adjustment (fit - h2_energy) * num_atoms, where h2_energy is the
lowest H2 energy per atom recorded by the batch scan; the lowest-energy H2
polymorph is thereby shifted to the fitted value, and polymorph differences
within a batch are preserved, not collapsed. -/
theorem aqueous_h2_fit_adjustment (st : AqState) (cls : String) (e : Entry)
    (o2e h2oe w h2e : ℚ) (h1 : st.o2_energy = some o2e)
    (h2 : st.h2o_energy = some h2oe) (h3 : st.h2o_adjustments = some w)
    (h4 : st.h2_energy = some h2e) (hr : e.comp.reduced_formula = "H2") :
    fitH2Energy o2e h2oe =
      pyRound6 (1/2 * (3 * (h2oe - 71963/1000000) - (o2e - 316731/1000000)
        - MU_H2O))
    ∧ (∃ rest, MaterialsProjectAqueousCompatibility.get_adjustments st cls e =
        Except.ok (EA.const "MP Aqueous H2 / H2O referencing" cls
          ((fitH2Energy o2e h2oe - h2e) * e.comp.num_atoms) none :: rest))
    ∧ ∀ (st0 : AqState) (es : List Entry) (a : Entry),
        argminEpa (es.filter fun x => x.comp.reduced_formula == "H2") = some a →
        (scanState st0 es).h2_energy = some a.energy_per_atom
        ∧ a ∈ es.filter (fun x => x.comp.reduced_formula == "H2")
        ∧ ∀ x ∈ es.filter (fun x => x.comp.reduced_formula == "H2"),
            a.energy_per_atom ≤ x.energy_per_atom := by
  refine ⟨rfl, ?_, ?_⟩
  · refine ⟨?_, ?_⟩
    · exact (match List.lookup e.comp.reduced_formula cpd_entropies with
        | some s => [EA.tempScaled "Compound entropy at room temperature" cls
            (-s / 298) 298 e.comp.num_atoms none]
        | none => []) ++
        (if e.comp.reduced_formula ≠ "H2O" then
          if 0 < aqNH2O e.comp then
            [EA.compScaled "MP Aqueous hydrate" cls ((-1) * (w * 3 + MU_H2O))
              (aqNH2O e.comp) none]
          else []
        else [])
    · rw [aq_get_adjustments_eq st cls e o2e h2oe w h1 h2 h3, if_pos hr, h4]
      rfl
  · intro st0 es a ha
    exact ⟨scanState_h2_energy st0 es a ha, (argminEpa_spec _ a ha).1,
      (argminEpa_spec _ a ha).2⟩

/-- An H2 composition. -/
def h2Comp : Comp :=
  { amounts := [("H", 2)], reduced_formula := "H2",
    reduced_amounts := [("H", 2)], factor := 1 }

/-- The lower-energy H2 polymorph (-3.5 eV/atom). -/
def eH2A : Entry := { baseEntry with comp := h2Comp, uncorrected_energy := -7 }

/-- The higher-energy H2 polymorph (-3 eV/atom). -/
def eH2B : Entry := { baseEntry with comp := h2Comp, uncorrected_energy := -6 }

/-- An aqueous state with constructor-supplied reference values. -/
def aqStH2 : AqState :=
  { o2_energy := some 2, h2o_energy := some 1, h2_energy := none,
    h2o_adjustments := some 1 }

/-- Claim C4 counterexample: a batch with two H2 polymorphs of different
energies per atom yields two different corrected energies — the H2 referencing
adjustment uses the same batch-lowest `h2_energy` for both entries, so the
polymorphs do not collapse to one corrected energy. -/
theorem aqueous_h2_no_collapse_cex :
    Except.map (List.map Entry.energy)
      (MaterialsProjectAqueousCompatibility.process_entries none "aq" aqStH2
        [eH2A, eH2B] false OnError.ignore) =
      Except.ok [1779571/500000, 2279571/500000]
    ∧ (1779571/500000 : ℚ) ≠ 2279571/500000 := by
  have hfit : fitH2Energy 2 1 = 1779571/1000000 := by
    unfold fitH2Energy
    rw [show List.lookup "H2O" cpd_entropies = some (71963/1000000) from rfl,
      show List.lookup "O2" cpd_entropies = some (316731/1000000) from rfl]
    unfold pyRound6 pyRoundHalfEven pyFloor MU_H2O
    norm_num
  have hepaA : eH2A.energy_per_atom = -7/2 := by
    norm_num [Entry.energy_per_atom, Entry.energy, Entry.correction, eH2A,
      baseEntry, h2Comp, Comp.num_atoms]
  have hepaB : eH2B.energy_per_atom = -3 := by
    norm_num [Entry.energy_per_atom, Entry.energy, Entry.correction, eH2B,
      baseEntry, h2Comp, Comp.num_atoms]
  have hargmin : argminEpa [eH2A, eH2B] = some eH2A := by
    unfold argminEpa
    rw [List.foldl_cons, List.foldl_cons, List.foldl_nil]
    simp only []
    rw [if_neg (by rw [hepaA, hepaB]; norm_num)]
  have hfilt : ([eH2A, eH2B].filter fun e => e.comp.reduced_formula == "H2") =
      [eH2A, eH2B] := by decide
  have hscan : scanState aqStH2 [eH2A, eH2B] =
      { aqStH2 with h2_energy := some eH2A.energy_per_atom } := by
    unfold scanState
    rw [hfilt, hargmin]
    norm_num [pyFalsy, aqStH2]
  have hnA : aqNH2O eH2A.comp = 0 := by
    unfold aqNH2O
    rw [show List.lookup "H" eH2A.comp.reduced_amounts = some 2 from by decide,
      show List.lookup "O" eH2A.comp.reduced_amounts = none from by decide,
      show eH2A.comp.factor = 1 from by decide]
    norm_num [pyTrunc, min_def]
  have hnB : aqNH2O eH2B.comp = 0 := by
    unfold aqNH2O
    rw [show List.lookup "H" eH2B.comp.reduced_amounts = some 2 from by decide,
      show List.lookup "O" eH2B.comp.reduced_amounts = none from by decide,
      show eH2B.comp.factor = 1 from by decide]
    norm_num [pyTrunc, min_def]
  have hadjA : MaterialsProjectAqueousCompatibility.get_adjustments
      { aqStH2 with h2_energy := some eH2A.energy_per_atom } "aq" eH2A =
      Except.ok [EA.const "MP Aqueous H2 / H2O referencing" "aq"
        ((fitH2Energy 2 1 - eH2A.energy_per_atom) * eH2A.comp.num_atoms) none] := by
    rw [aq_get_adjustments_eq _ "aq" eH2A 2 1 1 rfl rfl rfl]
    rw [if_pos (by decide : eH2A.comp.reduced_formula = "H2")]
    rw [show ({ aqStH2 with h2_energy := some eH2A.energy_per_atom } :
      AqState).h2_energy = some eH2A.energy_per_atom from rfl]
    rw [show List.lookup eH2A.comp.reduced_formula cpd_entropies = none from
      by decide]
    rw [if_pos (by decide : eH2A.comp.reduced_formula ≠ "H2O")]
    rw [if_neg (by rw [hnA]; norm_num)]
    rfl
  have hadjB : MaterialsProjectAqueousCompatibility.get_adjustments
      { aqStH2 with h2_energy := some eH2A.energy_per_atom } "aq" eH2B =
      Except.ok [EA.const "MP Aqueous H2 / H2O referencing" "aq"
        ((fitH2Energy 2 1 - eH2A.energy_per_atom) * eH2B.comp.num_atoms) none] := by
    rw [aq_get_adjustments_eq _ "aq" eH2B 2 1 1 rfl rfl rfl]
    rw [if_pos (by decide : eH2B.comp.reduced_formula = "H2")]
    rw [show ({ aqStH2 with h2_energy := some eH2A.energy_per_atom } :
      AqState).h2_energy = some eH2A.energy_per_atom from rfl]
    rw [show List.lookup eH2B.comp.reduced_formula cpd_entropies = none from
      by decide]
    rw [if_pos (by decide : eH2B.comp.reduced_formula ≠ "H2O")]
    rw [if_neg (by rw [hnB]; norm_num)]
    rfl
  have hoA : entryOutcome (MaterialsProjectAqueousCompatibility.get_adjustments
      { aqStH2 with h2_energy := some eH2A.energy_per_atom } "aq") false eH2A =
      .ok (eH2A.withAdjustments [EA.const "MP Aqueous H2 / H2O referencing" "aq"
        ((fitH2Energy 2 1 - eH2A.energy_per_atom) * eH2A.comp.num_atoms) none],
        true) := by
    rw [entryOutcome_ok _ eH2A _ hadjA]
    rw [show applyAdj (eH2A.energy_adjustments, false)
      [EA.const "MP Aqueous H2 / H2O referencing" "aq"
        ((fitH2Energy 2 1 - eH2A.energy_per_atom) * eH2A.comp.num_atoms) none] =
      ([EA.const "MP Aqueous H2 / H2O referencing" "aq"
        ((fitH2Energy 2 1 - eH2A.energy_per_atom) * eH2A.comp.num_atoms) none],
        false) from rfl]
    rfl
  have hoB : entryOutcome (MaterialsProjectAqueousCompatibility.get_adjustments
      { aqStH2 with h2_energy := some eH2A.energy_per_atom } "aq") false eH2B =
      .ok (eH2B.withAdjustments [EA.const "MP Aqueous H2 / H2O referencing" "aq"
        ((fitH2Energy 2 1 - eH2A.energy_per_atom) * eH2B.comp.num_atoms) none],
        true) := by
    rw [entryOutcome_ok _ eH2B _ hadjB]
    rw [show applyAdj (eH2B.energy_adjustments, false)
      [EA.const "MP Aqueous H2 / H2O referencing" "aq"
        ((fitH2Energy 2 1 - eH2A.energy_per_atom) * eH2B.comp.num_atoms) none] =
      ([EA.const "MP Aqueous H2 / H2O referencing" "aq"
        ((fitH2Energy 2 1 - eH2A.energy_per_atom) * eH2B.comp.num_atoms) none],
        false) from rfl]
    rfl
  refine ⟨?_, by norm_num⟩
  simp only [MaterialsProjectAqueousCompatibility.process_entries, hscan]
  rw [Compatibility.process_entries, hoA, Compatibility.process_entries, hoB,
    Compatibility.process_entries]
  simp only [if_true, Except.map, List.map]
  rw [show (eH2A.withAdjustments [EA.const "MP Aqueous H2 / H2O referencing" "aq"
      ((fitH2Energy 2 1 - eH2A.energy_per_atom) * eH2A.comp.num_atoms)
      none]).energy =
    eH2A.uncorrected_energy +
      ((fitH2Energy 2 1 - eH2A.energy_per_atom) * eH2A.comp.num_atoms + 0)
    from rfl]
  rw [show (eH2B.withAdjustments [EA.const "MP Aqueous H2 / H2O referencing" "aq"
      ((fitH2Energy 2 1 - eH2A.energy_per_atom) * eH2B.comp.num_atoms)
      none]).energy =
    eH2B.uncorrected_energy +
      ((fitH2Energy 2 1 - eH2A.energy_per_atom) * eH2B.comp.num_atoms + 0)
    from rfl]
  rw [hfit, hepaA]
  norm_num [eH2A, eH2B, baseEntry, h2Comp, Comp.num_atoms]

/-- Claim C4 witness: the fit formula and the H2 referencing adjustment at the
concrete state and lower H2 polymorph. -/
theorem aqueous_h2_fit_adjustment_witness :
    fitH2Energy 2 1 = pyRound6 (1/2 * (3 * ((1 : ℚ) - 71963/1000000) -
      ((2 : ℚ) - 316731/1000000) - MU_H2O))
    ∧ (∃ rest, MaterialsProjectAqueousCompatibility.get_adjustments
        { aqStH2 with h2_energy := some (-7/2) } "aq" eH2A =
        Except.ok (EA.const "MP Aqueous H2 / H2O referencing" "aq"
          ((fitH2Energy 2 1 - (-7/2)) * eH2A.comp.num_atoms) none :: rest)) :=
  ⟨(aqueous_h2_fit_adjustment { aqStH2 with h2_energy := some (-7/2) } "aq" eH2A
      2 1 1 (-7/2) rfl rfl rfl rfl (by decide)).1,
   (aqueous_h2_fit_adjustment { aqStH2 with h2_energy := some (-7/2) } "aq" eH2A
      2 1 1 (-7/2) rfl rfl rfl rfl (by decide)).2.1⟩

end PmgCompat
